import Mathlib

/-!
Shallow embedding of the glmnet R entry layer (`glmnet`, `elnet`, `fishnet`)
and the parts of the path-solver interface the specification talks about.
Real numbers are modelled by `ℚ`; R's extended numerics (`Inf`, `-Inf`, `NA`)
by small inductive types where they matter.
-/

namespace Glmnet

/-- An extended rational for the box-limit vectors `lower.limits` /
`upper.limits` (default `-Inf` / `Inf`); `NA` limits are out of scope. -/
inductive XRat where
  | ninf : XRat
  | fin : ℚ → XRat
  | pinf : XRat
deriving DecidableEq, Repr

/-- `v > 0` on extended rationals. -/
def XRat.gtZero : XRat → Bool
  | .ninf => false
  | .fin q => q > 0
  | .pinf => true

/-- `v < 0` on extended rationals. -/
def XRat.ltZero : XRat → Bool
  | .ninf => true
  | .fin q => q < 0
  | .pinf => false

/-- `v = 0` test on extended rationals (used by `any(cl==0)`). -/
def XRat.isZero : XRat → Bool
  | .fin q => q = 0
  | _ => false

/-- Finiteness of an extended rational. -/
def XRat.isFin : XRat → Bool
  | .fin _ => true
  | _ => false

/-! ## α clamping (glmnet.R lines 403-411)

```r
if(alpha>1){ warning("alpha >1; set to 1"); alpha=1 }
if(alpha<0){ warning("alpha<0; set to 0"); alpha=0 }
```
The boolean records whether a warning was issued. -/

/-- The entry point's treatment of the elastic-net mixing parameter. -/
def clampAlpha (alpha : ℚ) : ℚ × Bool :=
  if alpha > 1 then (1, true)
  else if alpha < 0 then (0, true)
  else (alpha, false)

/-! ## Default `lambda.min.ratio` (glmnet.R line 350)

```r
lambda.min.ratio = ifelse(nobs < nvars, 1e-2, 1e-4)
``` -/

/-- The default value of `lambda.min.ratio` as a function of the data shape. -/
def lambdaMinRatioDefault (nobs nvars : ℕ) : ℚ :=
  if nobs < nvars then 1/100 else 1/10000

/-- What the claim says the default is: `10⁻⁴` when `n > p` and `10⁻²`
otherwise (so `10⁻²` also at `n = p`). -/
def lambdaMinRatioClaimed (nobs nvars : ℕ) : ℚ :=
  if nobs > nvars then 1/10000 else 1/100

/-- Modelled from the spec: the λ-grid computation lives in the numeric core,
which is not under `src/`.  Per the spec the core emits `nlam` values equally
spaced on a log scale from `λ_max` down to `flmin · λ_max`; we model the
geometric grid through its per-step factor `alf` (so that log-equal spacing is
expressible over `ℚ`), with `alf ^ (nlam - 1) = flmin` as a hypothesis. -/
def lambdaGridModel (lmax alf : ℚ) (nlam : ℕ) : List ℚ :=
  (List.range nlam).map (fun m => lmax * alf ^ m)

theorem lambdaGridModel_length (lmax alf : ℚ) (nlam : ℕ) :
    (lambdaGridModel lmax alf nlam).length = nlam := by
  simp [lambdaGridModel]

theorem lambdaGridModel_head (lmax alf : ℚ) (nlam : ℕ) (h : 1 ≤ nlam) :
    (lambdaGridModel lmax alf nlam).head? = some lmax := by
  cases nlam with
  | zero => omega
  | succ n =>
      simp [lambdaGridModel, List.range_succ_eq_map]

theorem lambdaGridModel_getLast (lmax alf : ℚ) (nlam : ℕ) (h : 1 ≤ nlam) :
    (lambdaGridModel lmax alf nlam).getLast? = some (lmax * alf ^ (nlam - 1)) := by
  cases nlam with
  | zero => omega
  | succ n =>
      simp [lambdaGridModel, List.getLast?_eq_getElem?]

/-! ## User-supplied λ handling (glmnet.R lines 473-483)

```r
if(is.null(lambda)){
  if(lambda.min.ratio>=1)stop("lambda.min.ratio should be less than 1")
  flmin=as.double(lambda.min.ratio); ulam=double(1)
} else {
  flmin=as.double(1)
  if(any(lambda<0))stop("lambdas should be non-negative")
  ulam=as.double(rev(sort(lambda))); nlam=as.integer(length(lambda))
}
``` -/

/-- Errors raised by `stop(...)` in the R entry layer. -/
inductive RError where
  | negativeLambda : RError
  | ratioNotBelowOne : RError
  | lowerLimitPositive : RError
  | upperLimitNegative : RError
  | badLimitLength : RError
  | weightsLengthMismatch : RError
  | yLengthMismatch : RError
  | xHasMissing : RError
  | xTooFewColumns : RError
  | yConstant : RError
  | negativePoissonY : RError
deriving DecidableEq, Repr

/-- The `(flmin, ulam, nlam)` triple the entry point passes to the core when
the caller supplies a λ sequence. -/
def processUserLambda (lam : List ℚ) : Except RError (ℚ × List ℚ × ℕ) :=
  if lam.any (fun q => q < 0) then .error .negativeLambda
  else .ok (1, (List.insertionSort (· ≤ ·) lam).reverse, lam.length)

/-- Modelled from the spec: the core's grid for a user-supplied sequence is
not under `src/`; per the spec ("if the caller supplies λ, sort strictly
decreasing and use verbatim") the core with `flmin ≥ 1` reports `alm = ulam`
unchanged. -/
def coreAlmUserGrid (flmin : ℚ) (ulam : List ℚ) : List ℚ :=
  if flmin ≥ 1 then ulam else []

/-! ## `type.gaussian` default and `ka` encoding

glmnet.R line 350: `type.gaussian = ifelse(nvars < 500, "covariance", "naive")`
(the default depends on `nvars` only, not on the sparsity of `x`).
unnamed/part_000 lines 6-9: `ka = switch(type.gaussian, covariance = 1, naive = 2)`. -/

/-- The two Gaussian computation modes. -/
inductive TypeGaussian where
  | covariance : TypeGaussian
  | naive : TypeGaussian
deriving DecidableEq, Repr

/-- The default `type.gaussian` computed by the entry point. -/
def typeGaussianDefault (nvars : ℕ) : TypeGaussian :=
  if nvars < 500 then .covariance else .naive

/-- What the claim says the default is: covariance only when `p < 500` and
the matrix is dense, naive otherwise. -/
def typeGaussianClaimed (nvars : ℕ) (isSparse : Bool) : TypeGaussian :=
  if nvars < 500 ∧ isSparse = false then .covariance else .naive

/-- The `ka` flag `elnet` passes to the core (part_000 lines 6-9). -/
def ka : TypeGaussian → ℤ
  | .covariance => 1
  | .naive => 2

/-! ## Box-limit processing (glmnet.R lines 443-455)

```r
if(any(lower.limits>0)){stop("Lower limits should be non-positive")}
if(any(upper.limits<0)){stop("Upper limits should be non-negative")}
lower.limits[lower.limits==-Inf]=-internal.parms$big
upper.limits[upper.limits==Inf]=internal.parms$big
if(length(lower.limits)<nvars){
  if(length(lower.limits)==1)lower.limits=rep(lower.limits,nvars)
  else stop("Require length 1 or nvars lower.limits")
} else lower.limits=lower.limits[seq(nvars)]
...same for upper...
cl=rbind(lower.limits,upper.limits)
``` -/

/-- Length adjustment of a limits vector: replicate a scalar to `nvars`,
reject other short vectors, truncate long ones. -/
def extendLimits (xs : List XRat) (nvars : ℕ) : Except RError (List XRat) :=
  if xs.length < nvars then
    match xs with
    | [v] => .ok (List.replicate nvars v)
    | _ => .error .badLimitLength
  else .ok (xs.take nvars)

/-- The full limit-processing pipeline producing the two rows of `cl`. -/
def processLimits (big : ℚ) (lower upper : List XRat) (nvars : ℕ) :
    Except RError (List XRat × List XRat) :=
  if lower.any XRat.gtZero then .error .lowerLimitPositive
  else if upper.any XRat.ltZero then .error .upperLimitNegative
  else
    let lo := lower.map (fun v => if v = XRat.ninf then XRat.fin (-big) else v)
    let hi := upper.map (fun v => if v = XRat.pinf then XRat.fin big else v)
    match extendLimits lo nvars, extendLimits hi nvars with
    | .ok lo2, .ok hi2 => .ok (lo2, hi2)
    | .error e, _ => .error e
    | _, .error e => .error e

/-! ## Process-wide configuration around the fit (glmnet.R lines 434-441, 456-464)

```r
internal.parms=glmnet.control()
if(internal.parms$itrace)trace.it=1
else{ if(trace.it){ glmnet.control(itrace=1); on.exit(glmnet.control(itrace=0)) } }
...
if(any(cl==0)){
  fdev=glmnet.control()$fdev
  if(fdev!=0) { glmnet.control(fdev=0); on.exit(glmnet.control(fdev=fdev)) }
}
```
`on.exit` is called without `add=TRUE`, so a second registration replaces the
first; we model the pending exit expression explicitly. -/

/-- The process-wide `glmnet.control` record (the fields the entry point
reads or writes). -/
structure GlmnetControl where
  fdev : ℚ
  devmax : ℚ
  pmin : ℚ
  big : ℚ
  itrace : Bool
deriving DecidableEq, Repr

/-- The pending `on.exit` expression (at most one: plain `on.exit` replaces). -/
inductive ExitAction where
  | noact : ExitAction
  | restoreItraceOff : ExitAction
  | restoreFdev : ℚ → ExitAction
deriving DecidableEq, Repr

/-- Run the registered exit expression on the configuration. -/
def applyExitAction : ExitAction → GlmnetControl → GlmnetControl
  | .noact, c => c
  | .restoreItraceOff, c => { c with itrace := false }
  | .restoreFdev f, c => { c with fdev := f }

/-- The configuration the fit runs under and the pending exit expression,
given `trace.it`, the processed `cl` rows, and the entry configuration. -/
def glmnetControlSetup (traceIt : Bool) (clLo clHi : List XRat)
    (s : GlmnetControl) : GlmnetControl × ExitAction :=
  let p1 : GlmnetControl × ExitAction :=
    if s.itrace then (s, .noact)
    else if traceIt then ({ s with itrace := true }, .restoreItraceOff)
    else (s, .noact)
  if (clLo ++ clHi).any XRat.isZero then
    if p1.1.fdev ≠ 0 then ({ p1.1 with fdev := 0 }, .restoreFdev p1.1.fdev)
    else p1
  else p1

/-- The configuration as it stands after the entry point returns. -/
def controlAfterReturn (traceIt : Bool) (clLo clHi : List XRat)
    (s : GlmnetControl) : GlmnetControl :=
  let p := glmnetControlSetup traceIt clLo clHi s
  applyExitAction p.2 p.1

/-! ## The `elnet` wrapper (unnamed/part_000)

Null deviance, the call into the core, and post-processing of `jerr`/`lmu`. -/

/-- Weighted mean `weighted.mean(y, w) = Σ wᵢ yᵢ / Σ wᵢ`. -/
def weightedMean (y w : List ℚ) : ℚ :=
  (List.zipWith (· * ·) w y).sum / w.sum

/-- The response after offset adjustment (`y = y - offset` when supplied). -/
def elnetYAdj (y : List ℚ) (offset : Option (List ℚ)) : List ℚ :=
  match offset with
  | none => y
  | some o => List.zipWith (· - ·) y o

/-- Arguments of the `elnet` wrapper that matter for the null deviance and
the error pathway. -/
structure ElnetArgs where
  y : List ℚ
  weights : List ℚ
  offset : Option (List ℚ)
  intr : Bool
deriving DecidableEq, Repr

/-- part_000 lines 20-22: `ybar = if(intr) weighted.mean(y, weights) else 0;
nulldev = sum(weights * (y - ybar)^2)`. -/
def elnetNullDev (args : ElnetArgs) : ℚ :=
  let y := elnetYAdj args.y args.offset
  let ybar := if args.intr then weightedMean y args.weights else 0
  (List.zipWith (fun wi yi => wi * (yi - ybar) ^ 2) args.weights y).sum

/-- The claim's formula for the Gaussian null deviance:
`Σᵢ wᵢ (yᵢ − ȳ)²` with `ȳ` the weighted mean of `y` under an intercept
and `0` otherwise. -/
def nullDevClaim (y w : List ℚ) (intr : Bool) : ℚ :=
  let ybar := if intr then (List.zipWith (· * ·) w y).sum / w.sum else 0
  (List.zipWith (fun wi yi => wi * (yi - ybar) ^ 2) w y).sum

/-- The output block filled in by the core (`elnet_exp` / `spelnet_exp`). -/
structure ElnetFit where
  lmu : ℕ
  a0 : List ℚ
  ca : List (List ℚ)
  ia : List ℤ
  nin : List ℕ
  rsq : List ℚ
  alm : List ℚ
  nlp : ℕ
  jerr : ℤ
deriving DecidableEq, Repr

/-- Modelled from the spec: the `jerr(n, maxit, pmax, family)` message table is
not under `src/`; per the spec the codes "partition into fatal ... and
non-fatal" and the path driver "decides truncate-vs-abort based on sign" —
positive codes (allocation, zero-variance `10000+j`) fatal, negative codes
(`-k`, truncation at step `k`) non-fatal. -/
def jerrFatal (n : ℤ) : Bool := 0 < n

/-- R's `seq(n)` for scalar `n`: `1:n`, which is `[1, 0]` when `n = 0`. -/
def seqR (n : ℕ) : List ℕ :=
  if n = 0 then [1, 0] else (List.range n).map (· + 1)

/-- R 1-based vector subsetting by an index list; index `0` selects nothing
(indices beyond the length, which give `NA` in R, do not occur here). -/
def rSelect {α : Type} (xs : List α) (idxs : List ℕ) : List α :=
  idxs.filterMap (fun i => if i = 0 then none else xs.get? (i - 1))

/-- The per-λ pieces of the returned object. -/
structure ElnetOut where
  a0 : List ℚ
  beta : List (List ℚ)
  nin : List ℕ
  lambda : List ℚ
  devFrac : List ℚ
  nulldev : ℚ
  npasses : ℕ
  jerr : ℤ
deriving DecidableEq, Repr

/-- Modelled from the spec: `getcoef` is not under `src/`; per the spec the
path result "is truncated to `lmu` columns", so the per-λ outputs
(`a0`, coefficient columns, `nin`, `alm`) are subset by `seq(lmu)`. -/
def getcoefCols (fit : ElnetFit) : List ℚ × List (List ℚ) × List ℕ × List ℚ :=
  (rSelect fit.a0 (seqR fit.lmu), rSelect fit.ca (seqR fit.lmu),
   rSelect fit.nin (seqR fit.lmu), rSelect fit.alm (seqR fit.lmu))

/-- Outcome of an `elnet` call, distinguishing the two `stop()` channels. -/
inductive ElnetOutcome where
  | preStop : RError → ElnetOutcome
  | jerrStop : ℤ → ElnetOutcome
  | done : ElnetOut → Bool → ElnetOutcome
deriving DecidableEq, Repr

/-- The `elnet` wrapper (part_000 lines 20-58): null deviance, constant-`y`
stop, the core call, the fatal/non-fatal `jerr` dispatch, and assembly of the
truncated output (`dev = fit$rsq[seq(fit$lmu)]`).  The core itself is a
parameter. -/
def elnet (core : ElnetArgs → ElnetFit) (args : ElnetArgs) : ElnetOutcome :=
  let nulldev := elnetNullDev args
  if nulldev = 0 then .preStop .yConstant
  else
    let fit := core args
    if fit.jerr ≠ 0 ∧ jerrFatal fit.jerr then .jerrStop fit.jerr
    else
      let cols := getcoefCols fit
      let dev := rSelect fit.rsq (seqR fit.lmu)
      .done { a0 := cols.1, beta := cols.2.1, nin := cols.2.2.1,
              lambda := cols.2.2.2, devFrac := dev, nulldev := nulldev,
              npasses := fit.nlp, jerr := fit.jerr }
        (decide (fit.jerr ≠ 0))

/-- Whether an outcome surfaces through the core's `jerr` channel. -/
def ElnetOutcome.viaJerr : ElnetOutcome → Bool
  | .jerrStop _ => true
  | _ => false

/-! ## Entry validation (glmnet.R lines 354-377, 414-416; fishnet line 542) -/

/-- Modelled from the spec: `fix.lam` is not under `src/`; per the spec the
"entry point" convention applies "a small numerical smoothing of the first
element" — the log-linear extrapolation
`lam[1] = exp(2·log lam[2] − log lam[3]) = lam[2]²/lam[3]`, leaving shorter
sequences unchanged. -/
def fixLam (lam : List ℚ) : List ℚ :=
  match lam with
  | _ :: l2 :: l3 :: rest => (l2 * l2 / l3) :: l2 :: l3 :: rest
  | l => l

/-- The reported λ sequence: post-processed by `fix.lam` exactly when the
grid was computed internally (`is.null(lambda)`). -/
def reportedLambda (userLambda : Option (List ℚ)) (fitLambda : List ℚ) :
    List ℚ :=
  match userLambda with
  | none => fixLam fitLambda
  | some _ => fitLambda

/-! ## Helper lemmas -/

theorem filterMap_range_getElem {α : Type} (xs : List α) (n : ℕ) :
    (List.range n).filterMap (fun m => xs[m]?) = xs.take n := by
  induction n with
  | zero => simp
  | succ k ih =>
      rw [List.range_succ, List.filterMap_append, ih, List.take_succ]
      congr 1

theorem rSelect_seqR {α : Type} (xs : List α) (n : ℕ) (h : 1 ≤ n) :
    rSelect xs (seqR n) = xs.take n := by
  have hn : seqR n = (List.range n).map (· + 1) := by
    unfold seqR
    rw [if_neg (by omega)]
  rw [rSelect, hn, List.filterMap_map]
  have : ((fun i => if i = 0 then none else xs.get? (i - 1)) ∘ (· + 1)) =
      (fun m => xs[m]?) := by
    funext m
    simp
  rw [this, filterMap_range_getElem]

/-! ## C9 -/

/-- C9: for every α the entry point does not fail: `α > 1` is replaced by `1`
and `α < 0` by `0`, each with a warning, so the solver always receives
`α ∈ [0, 1]` (glmnet.R lines 403-411). -/
theorem alpha_always_clamped_into_unit (alpha : ℚ) :
    (alpha > 1 → clampAlpha alpha = (1, true)) ∧
    (alpha < 0 → clampAlpha alpha = (0, true)) ∧
    0 ≤ (clampAlpha alpha).1 ∧ (clampAlpha alpha).1 ≤ 1 := by
  unfold clampAlpha
  split_ifs with h1 h2
  · exact ⟨fun _ => rfl, fun h => absurd h (by linarith), by norm_num, by norm_num⟩
  · exact ⟨fun h => absurd h h1, fun _ => rfl, by norm_num, by norm_num⟩
  · exact ⟨fun h => absurd h h1, fun h => absurd h h2,
      by simpa using not_lt.mp h2, by simpa using not_lt.mp h1⟩

/-- Witness for C9 at `α = 3/2` and the bounds of the clamped value. -/
theorem alpha_always_clamped_into_unit_witness :
    clampAlpha (3/2) = (1, true) ∧
    0 ≤ (clampAlpha (3/2)).1 ∧ (clampAlpha (3/2)).1 ≤ 1 :=
  ⟨(alpha_always_clamped_into_unit (3/2)).1 (by norm_num),
   (alpha_always_clamped_into_unit (3/2)).2.2.1,
   (alpha_always_clamped_into_unit (3/2)).2.2.2⟩

/-! ## C2 -/

/-- C2 counterexample: at `nobs = nvars = 5` the code's default
`lambda.min.ratio` is `10⁻⁴`, while the claim ("`10⁻⁴` when `n > p` and
`10⁻²` otherwise") requires `10⁻²` there. -/
theorem lambdaMinRatio_default_differs_at_n_eq_p :
    lambdaMinRatioDefault 5 5 = 1/10000 ∧
    lambdaMinRatioClaimed 5 5 = 1/100 ∧
    lambdaMinRatioDefault 5 5 ≠ lambdaMinRatioClaimed 5 5 := by
  refine ⟨rfl, rfl, ?_⟩
  norm_num [lambdaMinRatioDefault, lambdaMinRatioClaimed]

/-- C2 (amended): the smallest grid value is `lambda.min.ratio · λ_max`, and
the default ratio is `10⁻⁴` when `n ≥ p` and `10⁻²` when `n < p`.  The grid
is the spec-modelled geometric grid with per-step factor `alf`. -/
theorem lambdaMinRatio_default_and_grid_min (nobs nvars nlam : ℕ)
    (lmax alf : ℚ) (h1 : 1 ≤ nlam)
    (h2 : alf ^ (nlam - 1) = lambdaMinRatioDefault nobs nvars) :
    (lambdaGridModel lmax alf nlam).getLast? =
      some (lambdaMinRatioDefault nobs nvars * lmax) ∧
    (nvars ≤ nobs → lambdaMinRatioDefault nobs nvars = 1/10000) ∧
    (nobs < nvars → lambdaMinRatioDefault nobs nvars = 1/100) := by
  refine ⟨?_, ?_, ?_⟩
  · rw [lambdaGridModel_getLast _ _ _ h1, h2, mul_comm]
  · intro h
    simp [lambdaMinRatioDefault, Nat.not_lt.mpr h]
  · intro h
    simp [lambdaMinRatioDefault, h]

/-- Witness for C2 (amended) at `nobs = nvars = 5`, a two-point grid with
`λ_max = 3` and step `10⁻⁴`. -/
theorem lambdaMinRatio_default_and_grid_min_witness :
    (lambdaGridModel 3 (1/10000) 2).getLast? =
      some (lambdaMinRatioDefault 5 5 * 3) ∧
    lambdaMinRatioDefault 5 5 = 1/10000 :=
  ⟨(lambdaMinRatio_default_and_grid_min 5 5 2 3 (1/10000) (by norm_num)
      (by norm_num [lambdaMinRatioDefault])).1,
   (lambdaMinRatio_default_and_grid_min 5 5 2 3 (1/10000) (by norm_num)
      (by norm_num [lambdaMinRatioDefault])).2.1 (by norm_num)⟩

/-! ## C4 -/

/-- C4 counterexample: for a sparse design with `nvars = 3 < 500` the code's
default is covariance (`ka = 1`), while the claim ("covariance when `p < ~500`
and X is dense, naive otherwise") requires naive (`ka = 2`) — the default at
glmnet.R line 350 depends on `nvars` only, never on sparsity. -/
theorem typeGaussian_default_ignores_sparsity :
    typeGaussianDefault 3 = TypeGaussian.covariance ∧
    typeGaussianClaimed 3 true = TypeGaussian.naive ∧
    ka (typeGaussianDefault 3) = 1 ∧
    ka (typeGaussianClaimed 3 true) = 2 := by
  decide

/-- C4 (amended): the default mode is covariance exactly when `nvars < 500`,
dense or sparse alike; the chosen mode reaches the core as `ka = 1`
(covariance) or `ka = 2` (naive). -/
theorem typeGaussian_default_and_ka (nvars : ℕ) :
    (nvars < 500 → typeGaussianDefault nvars = TypeGaussian.covariance) ∧
    (500 ≤ nvars → typeGaussianDefault nvars = TypeGaussian.naive) ∧
    ka TypeGaussian.covariance = 1 ∧ ka TypeGaussian.naive = 2 := by
  refine ⟨fun h => ?_, fun h => ?_, rfl, rfl⟩
  · simp [typeGaussianDefault, h]
  · simp [typeGaussianDefault, Nat.not_lt.mpr h]

/-- Witness for C4 (amended) at `nvars = 3` and `nvars = 600`. -/
theorem typeGaussian_default_and_ka_witness :
    typeGaussianDefault 3 = TypeGaussian.covariance ∧
    typeGaussianDefault 600 = TypeGaussian.naive :=
  ⟨(typeGaussian_default_and_ka 3).1 (by norm_num),
   (typeGaussian_default_and_ka 600).2.1 (by norm_num)⟩

/-! ## C3 -/

/-- Ascending insertion sort reversed is sorted non-increasingly. -/
theorem sorted_ge_reverse_insertionSort (lam : List ℚ) :
    List.Sorted (· ≥ ·) ((List.insertionSort (· ≤ ·) lam).reverse) := by
  rw [List.Sorted, List.pairwise_reverse]
  show (List.insertionSort (· ≤ ·) lam).Pairwise (· ≤ ·)
  exact List.sorted_insertionSort _ lam

/-- C3 counterexample: the duplicated sequence `λ = [1, 1]` is accepted and
reported as `ulam = [1, 1]`, which is not strictly decreasing — `rev(sort(λ))`
only sorts non-increasingly. -/
theorem userLambda_ties_not_strictly_decreasing :
    processUserLambda [1, 1] = .ok (1, [1, 1], 2) ∧
    ¬ List.Sorted (· > ·) ([1, 1] : List ℚ) :=
  ⟨rfl, by decide⟩

/-- C3 (amended): a caller-supplied λ sequence with a negative entry is
rejected; otherwise the entry point reports `flmin = 1` and `ulam` a
non-increasing permutation of the supplied values, strictly decreasing when
they are distinct, and the (spec-modelled) core uses `ulam` verbatim as the
grid. -/
theorem userLambda_sorted_and_verbatim (lam : List ℚ) :
    ((∃ q ∈ lam, q < 0) →
        processUserLambda lam = .error .negativeLambda) ∧
    (∀ flmin ulam nlam,
        processUserLambda lam = .ok (flmin, ulam, nlam) →
        flmin = 1 ∧ nlam = lam.length ∧ ulam.Perm lam ∧
        List.Sorted (· ≥ ·) ulam ∧
        (lam.Nodup → List.Sorted (· > ·) ulam) ∧
        coreAlmUserGrid flmin ulam = ulam) := by
  constructor
  · intro hneg
    have : lam.any (fun q => q < 0) = true := by
      rw [List.any_eq_true]
      obtain ⟨q, hq, hlt⟩ := hneg
      exact ⟨q, hq, by simpa using hlt⟩
    simp [processUserLambda, this]
  · intro flmin ulam nlam h
    unfold processUserLambda at h
    split at h
    · exact absurd h (by simp)
    · rw [Except.ok.injEq, Prod.mk.injEq, Prod.mk.injEq] at h
      obtain ⟨h1, h2, h3⟩ := h
      subst h1
      subst h2
      subst h3
      have hperm : ((List.insertionSort (· ≤ ·) lam).reverse).Perm lam :=
        (List.reverse_perm _).trans (List.perm_insertionSort _ lam)
      have hs := sorted_ge_reverse_insertionSort lam
      refine ⟨rfl, rfl, hperm, hs, ?_, by simp [coreAlmUserGrid]⟩
      intro hnd
      have hnd2 : ((List.insertionSort (· ≤ ·) lam).reverse).Nodup :=
        hperm.nodup_iff.mpr hnd
      exact (hs.and hnd2).imp (fun h => lt_of_le_of_ne h.1 h.2.symm)

/-- Witness for C3 (amended) on the supplied sequence `[2, 5]`. -/
theorem userLambda_sorted_and_verbatim_witness :
    (1 : ℚ) = 1 ∧ (2 : ℕ) = [(2 : ℚ), 5].length ∧
    ([(5 : ℚ), 2]).Perm [2, 5] ∧ List.Sorted (· ≥ ·) ([(5 : ℚ), 2]) ∧
    List.Sorted (· > ·) ([(5 : ℚ), 2]) ∧
    coreAlmUserGrid 1 [(5 : ℚ), 2] = [5, 2] := by
  obtain ⟨a, b, c, d, e, f⟩ :=
    (userLambda_sorted_and_verbatim [2, 5]).2 1 [5, 2] 2 rfl
  exact ⟨a, b, c, d, e (by decide), f⟩

/-! ## C10 -/

theorem extendLimits_ok {xs : List XRat} {n : ℕ} {ys : List XRat}
    (h : extendLimits xs n = .ok ys) :
    ys.length = n ∧ ∀ v ∈ ys, v ∈ xs := by
  unfold extendLimits at h
  split at h
  · split at h
    · rw [Except.ok.injEq] at h
      subst h
      refine ⟨List.length_replicate .., fun v hv => ?_⟩
      rw [List.eq_of_mem_replicate hv]
      exact List.mem_singleton_self _
    · exact absurd h (by simp)
  · rw [Except.ok.injEq] at h
    subst h
    next hlen =>
      exact ⟨by rw [List.length_take]; omega, fun v hv => List.mem_of_mem_take hv⟩

theorem extendLimits_singleton (v : XRat) (n : ℕ) (h : 2 ≤ n) :
    extendLimits [v] n = .ok (List.replicate n v) := by
  unfold extendLimits
  rw [if_pos (by simp; omega)]

/-- C10: on success the limit-processing step hands the solver two bound
vectors of length `nvars` whose entries are all finite and arise from the
caller's limits with every `-Inf` lower limit replaced by `-big` and every
`Inf` upper limit replaced by `big`, and a scalar lower or upper limit is
replicated to all `nvars` coordinates (glmnet.R lines 443-455). -/
theorem limits_finite_of_length_nvars (big : ℚ) (lower upper : List XRat)
    (nvars : ℕ) (lo hi : List XRat)
    (h : processLimits big lower upper nvars = .ok (lo, hi)) :
    lo.length = nvars ∧ hi.length = nvars ∧
    (∀ v ∈ lo, v.isFin = true ∧
       ∃ u ∈ lower, v = if u = XRat.ninf then XRat.fin (-big) else u) ∧
    (∀ v ∈ hi, v.isFin = true ∧
       ∃ u ∈ upper, v = if u = XRat.pinf then XRat.fin big else u) ∧
    (∀ v, lower = [v] → 2 ≤ nvars →
       lo = List.replicate nvars
              (if v = XRat.ninf then XRat.fin (-big) else v)) ∧
    (∀ v, upper = [v] → 2 ≤ nvars →
       hi = List.replicate nvars
              (if v = XRat.pinf then XRat.fin big else v)) := by
  unfold processLimits at h
  split at h
  · exact absurd h (by simp)
  split at h
  · exact absurd h (by simp)
  next hlow hup =>
  dsimp only at h
  split at h
  case _ lo2 hi2 heqlo heqhi =>
    rw [Except.ok.injEq, Prod.mk.injEq] at h
    obtain ⟨rfl, rfl⟩ := h
    have hloOk := extendLimits_ok heqlo
    have hhiOk := extendLimits_ok heqhi
    have hlowAll : ∀ u ∈ lower, u.gtZero = false := by
      intro u hu
      by_contra hne
      exact hlow (List.any_eq_true.mpr ⟨u, hu, by revert hne; cases u.gtZero <;> simp⟩)
    have hupAll : ∀ u ∈ upper, u.ltZero = false := by
      intro u hu
      by_contra hne
      exact hup (List.any_eq_true.mpr ⟨u, hu, by revert hne; cases u.ltZero <;> simp⟩)
    refine ⟨hloOk.1, hhiOk.1, ?_, ?_, ?_, ?_⟩
    · intro v hv
      obtain ⟨u, hu, rfl⟩ := List.mem_map.mp (hloOk.2 v hv)
      refine ⟨?_, u, hu, rfl⟩
      have := hlowAll u hu
      cases u <;> simp_all [XRat.gtZero, XRat.isFin]
    · intro v hv
      obtain ⟨u, hu, rfl⟩ := List.mem_map.mp (hhiOk.2 v hv)
      refine ⟨?_, u, hu, rfl⟩
      have := hupAll u hu
      cases u <;> simp_all [XRat.ltZero, XRat.isFin]
    · intro v hv hn
      subst hv
      rw [List.map_singleton] at heqlo
      rw [extendLimits_singleton _ _ hn, Except.ok.injEq] at heqlo
      exact heqlo.symm
    · intro v hv hn
      subst hv
      rw [List.map_singleton] at heqhi
      rw [extendLimits_singleton _ _ hn, Except.ok.injEq] at heqhi
      exact heqhi.symm
  · exact absurd h (by simp)
  · exact absurd h (by simp)

/-- Witness for C10: a scalar `-Inf` lower limit with a mixed upper vector,
and a scalar `Inf` upper limit, at `nvars = 3` with `big = 100`. -/
theorem limits_finite_of_length_nvars_witness :
    ([XRat.fin (-100), XRat.fin (-100), XRat.fin (-100)] : List XRat).length = 3 ∧
    (∀ v ∈ ([XRat.fin 2, XRat.fin 100, XRat.fin 0] : List XRat),
       v.isFin = true ∧
       ∃ u ∈ ([XRat.fin 2, XRat.pinf, XRat.fin 0] : List XRat),
         v = if u = XRat.pinf then XRat.fin (100 : ℚ) else u) ∧
    [XRat.fin (-100), XRat.fin (-100), XRat.fin (-100)] =
      List.replicate 3 (if XRat.ninf = XRat.ninf then XRat.fin (-(100 : ℚ))
                        else XRat.ninf) ∧
    [XRat.fin 100, XRat.fin 100, XRat.fin 100] =
      List.replicate 3 (if XRat.pinf = XRat.pinf then XRat.fin (100 : ℚ)
                        else XRat.pinf) := by
  obtain ⟨h1, _h2, _h3, h4, h5, _h6⟩ :=
    limits_finite_of_length_nvars 100 [XRat.ninf]
      [XRat.fin 2, XRat.pinf, XRat.fin 0] 3
      [XRat.fin (-100), XRat.fin (-100), XRat.fin (-100)]
      [XRat.fin 2, XRat.fin 100, XRat.fin 0] rfl
  obtain ⟨_, _, _, _, _, h7⟩ :=
    limits_finite_of_length_nvars 100 [XRat.ninf] [XRat.pinf] 3
      [XRat.fin (-100), XRat.fin (-100), XRat.fin (-100)]
      [XRat.fin 100, XRat.fin 100, XRat.fin 100] rfl
  exact ⟨h1, h4, h5 XRat.ninf rfl (by norm_num), h7 XRat.pinf rfl (by norm_num)⟩

/-! ## C5 -/

/-- C5 counterexample: entry configuration `fdev = 1`, `itrace` off, with
`trace.it = 1` and a zero bound.  During the fit `itrace` is also changed
(another process-wide setting), and because the `fdev` `on.exit` replaces the
`itrace` one, `itrace` is still on after return — the configuration is not
restored to its entry value. -/
theorem control_also_touches_itrace_under_tracing :
    (glmnetControlSetup true [XRat.fin 0] [XRat.fin 5]
        ⟨1, 0, 0, 0, false⟩).1 =
      ⟨0, 0, 0, 0, true⟩ ∧
    controlAfterReturn true [XRat.fin 0] [XRat.fin 5]
        ⟨1, 0, 0, 0, false⟩ =
      ⟨1, 0, 0, 0, true⟩ ∧
    (⟨1, 0, 0, 0, true⟩ : GlmnetControl) ≠ ⟨1, 0, 0, 0, false⟩ := by
  refine ⟨rfl, rfl, ?_⟩
  intro h
  exact Bool.false_ne_true (congrArg GlmnetControl.itrace h).symm

/-- C5 (amended): when some box limit is exactly zero and the process-wide
`fdev` is nonzero, and tracing is not being switched on (`trace.it = 0`, or
`itrace` already set so no toggle happens), the fit runs under the entry
configuration with `fdev` set to `0` and no other field changed, and on
return the configuration is restored exactly.  (With
`trace.it = 1` and `itrace` off, `itrace` is additionally toggled and is not
restored, since the second `on.exit` replaces the first.) -/
theorem control_fdev_zeroed_and_restored (traceIt : Bool) (clLo clHi : List XRat)
    (s : GlmnetControl) (htr : traceIt = false ∨ s.itrace = true)
    (hz : (clLo ++ clHi).any XRat.isZero = true) (hf : s.fdev ≠ 0) :
    (glmnetControlSetup traceIt clLo clHi s).1 = { s with fdev := 0 } ∧
    controlAfterReturn traceIt clLo clHi s = s := by
  obtain ⟨f, dm, pm, bg, it⟩ := s
  simp only at hf htr
  rcases htr with rfl | rfl
  · cases it <;>
      simp [glmnetControlSetup, controlAfterReturn, applyExitAction, hz, hf]
  · cases traceIt <;>
      simp [glmnetControlSetup, controlAfterReturn, applyExitAction, hz, hf]

/-- Witness for C5 (amended): zero lower bound and `fdev = 1`, once with no
tracing requested and once with `trace.it = 1` but `itrace` already on. -/
theorem control_fdev_zeroed_and_restored_witness :
    (glmnetControlSetup false [XRat.fin 0] [XRat.fin 5]
        ⟨1, 0, 0, 0, false⟩).1 = ⟨0, 0, 0, 0, false⟩ ∧
    controlAfterReturn false [XRat.fin 0] [XRat.fin 5]
        ⟨1, 0, 0, 0, false⟩ = ⟨1, 0, 0, 0, false⟩ ∧
    (glmnetControlSetup true [XRat.fin 0] [XRat.fin 5]
        ⟨1, 0, 0, 0, true⟩).1 = ⟨0, 0, 0, 0, true⟩ ∧
    controlAfterReturn true [XRat.fin 0] [XRat.fin 5]
        ⟨1, 0, 0, 0, true⟩ = ⟨1, 0, 0, 0, true⟩ := by
  obtain ⟨h1, h2⟩ :=
    control_fdev_zeroed_and_restored false [XRat.fin 0] [XRat.fin 5]
      ⟨1, 0, 0, 0, false⟩ (Or.inl rfl) (by decide) (by norm_num)
  obtain ⟨h3, h4⟩ :=
    control_fdev_zeroed_and_restored true [XRat.fin 0] [XRat.fin 5]
      ⟨1, 0, 0, 0, true⟩ (Or.inr rfl) (by decide) (by norm_num)
  exact ⟨h1, h2, h3, h4⟩

/-! ## C1 -/

/-- C1: when the core finishes with a nonzero `jerr`, a fatal code aborts
the fit with no partial result, while a non-fatal code attaches a warning and
returns the path truncated to the first `lmu` columns — `dev.ratio` and the
other per-λ outputs are taken from columns `1..lmu` only
(unnamed/part_000 lines 49-58). -/
theorem elnet_jerr_fatal_vs_truncate (core : ElnetArgs → ElnetFit)
    (args : ElnetArgs) (hnd : elnetNullDev args ≠ 0)
    (hj : (core args).jerr ≠ 0) :
    (jerrFatal (core args).jerr = true →
        elnet core args = .jerrStop (core args).jerr) ∧
    (jerrFatal (core args).jerr = false → 1 ≤ (core args).lmu →
        elnet core args = .done
          { a0 := (core args).a0.take (core args).lmu,
            beta := (core args).ca.take (core args).lmu,
            nin := (core args).nin.take (core args).lmu,
            lambda := (core args).alm.take (core args).lmu,
            devFrac := (core args).rsq.take (core args).lmu,
            nulldev := elnetNullDev args,
            npasses := (core args).nlp,
            jerr := (core args).jerr } true) := by
  constructor
  · intro hfatal
    simp [elnet, hnd, hj, hfatal]
  · intro hnf hlmu
    simp [elnet, getcoefCols, hnd, hj, hnf, rSelect_seqR _ _ hlmu]

/-- Witness for C1: a fatal core (`jerr = 10005`) aborts; a non-fatal core
(`jerr = -2`, `lmu = 1`) yields the one-column truncation with a warning. -/
theorem elnet_jerr_fatal_vs_truncate_witness :
    elnet (fun _ => ⟨0, [], [], [], [], [], [], 0, 10005⟩)
        ⟨[1, 2], [1, 1], none, false⟩ = .jerrStop 10005 ∧
    elnet (fun _ => ⟨1, [3, 4], [[5], [6]], [1], [1, 2], [1/2, 2/3], [9, 8], 7, -2⟩)
        ⟨[1, 2], [1, 1], none, false⟩ =
      .done ⟨[3], [[5]], [1], [9], [1/2], 5, 7, -2⟩ true := by
  have hnd : elnetNullDev ⟨[1, 2], [1, 1], none, false⟩ ≠ 0 := by
    norm_num [elnetNullDev, elnetYAdj]
  constructor
  · exact (elnet_jerr_fatal_vs_truncate
      (fun _ => ⟨0, [], [], [], [], [], [], 0, 10005⟩)
      ⟨[1, 2], [1, 1], none, false⟩ hnd (by norm_num)).1 (by decide)
  · have h := (elnet_jerr_fatal_vs_truncate
      (fun _ => ⟨1, [3, 4], [[5], [6]], [1], [1, 2], [1/2, 2/3], [9, 8], 7, -2⟩)
      ⟨[1, 2], [1, 1], none, false⟩ hnd (by norm_num)).2 (by decide) (by norm_num)
    rw [h]
    norm_num [elnetNullDev, elnetYAdj]

/-! ## C8 -/

/-- C8 counterexample: a constant Gaussian response aborts through the
caller's own `stop()` before the core is entered — the outcome is the
pre-core stop and does not go through the `jerr` channel, whichever core is
behind (here shown for two different cores). -/
theorem constant_y_stops_without_jerr :
    elnet (fun _ => ⟨0, [], [], [], [], [], [], 0, 0⟩)
        ⟨[2, 2], [1, 1], none, true⟩ = .preStop .yConstant ∧
    elnet (fun _ => ⟨0, [], [], [], [], [], [], 0, 123⟩)
        ⟨[2, 2], [1, 1], none, true⟩ = .preStop .yConstant ∧
    (elnet (fun _ => ⟨0, [], [], [], [], [], [], 0, 0⟩)
        ⟨[2, 2], [1, 1], none, true⟩).viaJerr = false := by
  have h0 : elnetNullDev ⟨[2, 2], [1, 1], none, true⟩ = 0 := by
    norm_num [elnetNullDev, weightedMean, elnetYAdj]
  refine ⟨?_, ?_, ?_⟩ <;> simp [elnet, h0, ElnetOutcome.viaJerr]

/-- C8 (amended): the Gaussian null deviance equals `Σᵢ wᵢ (yᵢ − ȳ)²` with
`ȳ` the weighted mean of `y` under an intercept and `0` otherwise (for the
offset-free call), and a zero null deviance makes the caller `stop()` before
the core runs — the error is not encoded in `jerr` and no path is computed
(the outcome is independent of the core). -/
theorem gaussian_nulldev_formula_and_stop (core : ElnetArgs → ElnetFit)
    (args : ElnetArgs) :
    (args.offset = none →
        elnetNullDev args = nullDevClaim args.y args.weights args.intr) ∧
    (elnetNullDev args = 0 →
        elnet core args = .preStop .yConstant ∧
        (elnet core args).viaJerr = false ∧
        ∀ core2, elnet core2 args = elnet core args) := by
  constructor
  · intro h
    simp [elnetNullDev, nullDevClaim, weightedMean, elnetYAdj, h]
  · intro h0
    refine ⟨?_, ?_, ?_⟩ <;> simp [elnet, h0, ElnetOutcome.viaJerr]

/-- Witness for C8 (amended) on the constant response `y = (3, 3)`. -/
theorem gaussian_nulldev_formula_and_stop_witness :
    elnetNullDev ⟨[3, 3], [1, 1], none, true⟩ =
      nullDevClaim [3, 3] [1, 1] true ∧
    elnet (fun _ => ⟨0, [], [], [], [], [], [], 0, 0⟩)
        ⟨[3, 3], [1, 1], none, true⟩ = .preStop .yConstant ∧
    (elnet (fun _ => ⟨0, [], [], [], [], [], [], 0, 0⟩)
        ⟨[3, 3], [1, 1], none, true⟩).viaJerr = false := by
  have h0 : elnetNullDev ⟨[3, 3], [1, 1], none, true⟩ = 0 := by
    norm_num [elnetNullDev, weightedMean, elnetYAdj]
  obtain ⟨h1, h2⟩ := gaussian_nulldev_formula_and_stop
    (fun _ => ⟨0, [], [], [], [], [], [], 0, 0⟩) ⟨[3, 3], [1, 1], none, true⟩
  obtain ⟨h3, h4, _⟩ := h2 h0
  exact ⟨h1 rfl, h3, h4⟩

/-! ## C7 -/

/-- C6: the (spec-modelled) core grid emits the computed λ_max as its first
value; `fix.lam` is applied by the caller exactly when the grid was computed
internally, rewrites only the first element, and a user-supplied λ sequence
is reported verbatim (glmnet.R line 527). -/
theorem firstLambda_postprocessing (userLam : Option (List ℚ))
    (fitLam : List ℚ) (lmax alf : ℚ) (nlam : ℕ) (h : 1 ≤ nlam) :
    (lambdaGridModel lmax alf nlam).head? = some lmax ∧
    (∀ l, userLam = some l → reportedLambda userLam fitLam = fitLam) ∧
    (userLam = none →
        reportedLambda userLam fitLam = fixLam fitLam ∧
        (fixLam fitLam).tail = fitLam.tail ∧
        (fixLam fitLam).length = fitLam.length) := by
  refine ⟨lambdaGridModel_head _ _ _ h, ?_, ?_⟩
  · intro l hl
    subst hl
    rfl
  · intro hl
    subst hl
    refine ⟨rfl, ?_, ?_⟩ <;>
      rcases fitLam with _ | ⟨a, _ | ⟨b, _ | ⟨c, rest⟩⟩⟩ <;> simp [fixLam]

/-- Witness for C6: a three-point grid with `λ_max = 7`, a user-supplied
sequence reported verbatim, and the internal grid's first element rewritten
in place. -/
theorem firstLambda_postprocessing_witness :
    (lambdaGridModel 7 (1/2) 3).head? = some 7 ∧
    reportedLambda (some [5]) [8, 4, 2] = [8, 4, 2] ∧
    reportedLambda none [8, 4, 2] = fixLam [8, 4, 2] ∧
    (fixLam [8, 4, 2]).tail = [4, 2] := by
  obtain ⟨h1, h2, _⟩ :=
    firstLambda_postprocessing (some [5]) [8, 4, 2] 7 (1/2) 3 (by norm_num)
  obtain ⟨_, _, h3⟩ :=
    firstLambda_postprocessing none [8, 4, 2] 7 (1/2) 3 (by norm_num)
  exact ⟨h1, h2 [5] rfl, (h3 rfl).1, (h3 rfl).2.1⟩

end Glmnet
